import Mathlib

/-!
Verification of the UCMAS registration/invoicing portal (Django app
`registrations`) against its design specification.

The definitions below are a shallow embedding of the relevant source code:

* `registrations/models.py` — `Student.save`, `InvoiceItem.save`,
  `Invoice.recalc_totals`, the model records;
* `registrations/invoicing.py` — `next_invoice_no`, `get_active_seller`,
  `recalc_invoice_totals`, `issue_invoice_for_event_regs`;
* `registrations/views_portal.py` — `competition_submit_final`,
  `course_enrollment_submit_selected`, `course_register_confirm`.

Database tables are embedded as Lean lists of records, Django querysets as
boolean predicates over rows, Python `Decimal` fixed-point arithmetic as
exact integer arithmetic on scaled values with an explicit round-half-even
quantization to two decimal places (the `decimal` module default rounding),
and raised exceptions as `Except` errors; `transaction.atomic` rollback is
modelled by returning the pre-transaction state on error.
-/

/-! ## Decimal strings and zero padding

Python renders the numeric payload of invoice numbers with the format
specifier 06d: the decimal digits of the number, left-padded with zeros to a
minimum width of six characters.  We model decimal rendering from first
principles so that we can prove the padded form is injective.
-/

/-- Base-10 digit extraction by repeated division, with an explicit fuel
argument so that the definition is structural (and therefore reducible by
the kernel); the fuel is never exhausted when it starts at `n`. -/
def natDigitsAux : Nat → Nat → List Nat
  | _, 0 => []
  | 0, _ + 1 => []
  | f + 1, n + 1 => natDigitsAux f ((n + 1) / 10) ++ [(n + 1) % 10]

/-- The base-10 digits of `n`, most significant first (empty for zero),
as produced by repeated division — the digits of Python `str(n)`. -/
def natDigits (n : Nat) : List Nat :=
  natDigitsAux n n

/-- The characters of Python `str(n)` for a natural number `n`. -/
def digitChars (n : Nat) : List Char :=
  if n = 0 then [Nat.digitChar 0] else (natDigits n).map Nat.digitChar

/-- Python format specifier 06d: the decimal digits of `n`, left-padded
with zeros to a minimum width of six characters. -/
def padChars (w : Nat) (n : Nat) : List Char :=
  List.replicate (w - (digitChars n).length) (Nat.digitChar 0) ++ digitChars n

/-- Reads a digit string back into the number it denotes (left fold,
most significant digit first). -/
def digitsVal (cs : List Char) : Nat :=
  cs.foldl (fun a c => a * 10 + (c.toNat - 48)) 0

/-! ## Decimal money arithmetic

`DecimalField` values are exact fixed-point decimals.  We embed monetary
amounts (`decimal_places=2`) as integer numbers of cents and the VAT rate
(`decimal_places=4`) as an integer number of ten-thousandths, so
`Decimal("0.1500")` is `1500` and `Decimal("100.00")` is `10000`.
`Decimal.quantize(Decimal("0.01"))` rounds to a multiple of 1/100 using
the `decimal` module's default `ROUND_HALF_EVEN`. -/

/-- Round the exact fraction `a / b` (with `b` positive) to the nearest
integer, ties to the even neighbour — the `decimal` module's default
`ROUND_HALF_EVEN`. -/
def rheDivInt (a b : ℤ) : ℤ :=
  let q := Int.fdiv a b
  let r := a - q * b
  if 2 * r < b then q
  else if b < 2 * r then q + 1
  else if q % 2 = 0 then q else q + 1

/-- `Decimal.quantize(Decimal("0.01"))` in cent space: the number of cents
of the two-decimal rounding of the exact value `num / den`. -/
def quantHalfEven (num den : ℤ) : ℤ :=
  rheDivInt (num * 100) den

/-! ## Data model (`registrations/models.py`)

Records carry the fields the verified claims are about; foreign keys are
embedded as numeric primary keys (`Option Nat` when nullable), timestamps as
abstract `Nat` instants supplied by the caller (the embedding cannot read
the clock, so `timezone.now()` becomes an explicit parameter). -/

/-- `User.role` choices. -/
inductive Role
  | ADMIN
  | ORG_MANAGER
  | ORG_STAFF
deriving DecidableEq, Repr

/-- Buyer organization fields used by invoice issuance. -/
structure Organization where
  id : Nat
  name_en : String
  vat_number : String
  national_address : String
deriving DecidableEq, Repr

/-- The request user: role, linked organization record and superuser flag. -/
structure PortalUser where
  id : Nat
  role : Role
  organization : Option Organization
  is_superuser : Bool
deriving DecidableEq, Repr

/-- `Event` fields used by competition registration and invoicing. -/
structure CompEvent where
  id : Nat
  code : String
  name : String
  fee_per_student : ℤ
deriving DecidableEq, Repr

/-- `EventRegistration.STATUS` choices. -/
inductive RegStatus
  | DRAFT
  | SUBMITTED
  | PENDING_PAYMENT
  | PAID
  | ACCEPTED
  | REJECTED
deriving DecidableEq, Repr

/-- An `EventRegistration` row. -/
structure EventReg where
  id : Nat
  organization : Nat
  event : Nat
  student : Nat
  status : RegStatus
  fee_amount : ℤ
  invoice : Option Nat
  submitted_at : Option Nat
  submitted_by : Option Nat
  paid_at : Option Nat
deriving DecidableEq, Repr

/-- `CourseEnrollment.STATUS` choices. -/
inductive CEStatus
  | DRAFT
  | SUBMITTED
  | ACCEPTED
  | REJECTED
  | PENDING_PAYMENT
  | PAID
  | ENROLLED
  | COMPLETED
  | DROPPED
deriving DecidableEq, Repr

/-- A `CourseEnrollment` row, with its full audit trail. -/
structure CourseEnr where
  id : Nat
  organization : Nat
  student : Nat
  course : Nat
  status : CEStatus
  created_by : Option Nat
  submitted_at : Option Nat
  submitted_by : Option Nat
  approved_at : Option Nat
  approved_by : Option Nat
  rejection_reason : String
  invoice : Option Nat
  paid_at : Option Nat
  payment_ref : String
deriving DecidableEq, Repr

/-- A `CompanyProfile` row (seller side of an invoice). -/
structure CompanyProfile where
  id : Nat
  legal_name : String
  is_active : Bool
deriving DecidableEq, Repr

/-- An `InvoiceSequence` row: counter keyed by (invoice_type, year). -/
structure SeqRec where
  invoice_type : String
  year : Nat
  last_number : Nat
deriving DecidableEq, Repr

/-- An `Invoice` row (header with buyer snapshot and monetary rollups). -/
structure InvoiceRec where
  id : Nat
  invoice_no : String
  invoice_type : String
  seller : Nat
  organization : Nat
  buyer_name : String
  buyer_vat_number : String
  buyer_national_address : String
  vat_rate : ℤ
  subtotal : ℤ
  vat_amount : ℤ
  total : ℤ
  status : String
  issued_by : Option Nat
deriving DecidableEq, Repr

/-- An `InvoiceItem` row. -/
structure InvoiceItemRec where
  id : Nat
  invoice : Nat
  student : Nat
  course_enrollment : Option Nat
  event_registration : Option Nat
  description : String
  qty : Nat
  unit_price : ℤ
  line_subtotal : ℤ
  line_vat : ℤ
  line_total : ℤ
deriving DecidableEq, Repr

/-- The relational store: one list per table. -/
structure DB where
  regs : List EventReg
  enrollments : List CourseEnr
  invoices : List InvoiceRec
  items : List InvoiceItemRec
  profiles : List CompanyProfile
  seqs : List SeqRec
  events : List CompEvent
deriving DecidableEq, Repr

/-! ## Sequence generator (`invoicing.next_invoice_no`) -/

/-- The invoice number string rendered by
f-string invoice_type, dash, year, dash, last_number formatted 06d. -/
def fmtInvoiceNo (ty : String) (year n : Nat) : String :=
  String.mk (ty.data ++ ('-' :: (digitChars year ++ ('-' :: padChars 6 n))))

/-- The `last_number` currently stored for the (type, year) bucket, zero if
the row does not exist yet (`get_or_create` default). -/
def lookupSeq (ty : String) (year : Nat) (seqs : List SeqRec) : Nat :=
  match seqs.find? (fun s => s.invoice_type == ty && s.year == year) with
  | some s => s.last_number
  | none => 0

/-- `next_invoice_no(invoice_type)`: lock-and-get-or-create the
(type, year) counter row, increment it, persist, and return the formatted
number.  Returns (string, new counter value, updated sequence table);
`year` is the caller-supplied `timezone.now().year`. -/
def nextInvoiceNo (ty : String) (year : Nat) (seqs : List SeqRec) :
    String × Nat × List SeqRec :=
  match seqs.find? (fun s => s.invoice_type == ty && s.year == year) with
  | some s =>
      let n := s.last_number + 1
      (fmtInvoiceNo ty year n, n,
        seqs.map (fun t =>
          if t.invoice_type == ty && t.year == year then
            { t with last_number := n }
          else t))
  | none =>
      (fmtInvoiceNo ty year 1, 1, seqs ++ [⟨ty, year, 1⟩])

/-- Issue `k` consecutive numbers in the same (type, year) bucket,
returning the (string, counter) pairs in call order. -/
def issueNumbers (ty : String) (year : Nat) : Nat → List SeqRec → List (String × Nat)
  | 0, _ => []
  | k + 1, seqs =>
      let r := nextInvoiceNo ty year seqs
      (r.1, r.2.1) :: issueNumbers ty year k r.2.2

/-! ## Seller resolution (`invoicing.get_active_seller`) -/

/-- `order_by("-id").first()` over a list: the element with the greatest
primary key, `none` for the empty list. -/
def firstByDescId (l : List CompanyProfile) : Option CompanyProfile :=
  l.foldl (fun acc p =>
    match acc with
    | none => some p
    | some q => if q.id < p.id then some p else some q) none

/-- `get_active_seller()`: the active `CompanyProfile` with the greatest
id, or `none` (the Python code raises `ValueError`) when no profile is
flagged active. -/
def getActiveSeller (profiles : List CompanyProfile) : Option CompanyProfile :=
  firstByDescId (profiles.filter (·.is_active))

/-! ## `InvoiceItem.save` (`models.py`) -/

/-- The three derived monetary fields computed by `InvoiceItem.save`:
line_subtotal is qty times unit_price quantized to two decimals, line_vat
is line_subtotal times the parent invoice's vat_rate quantized, line_total
is their quantized sum.  With `unit_price` in cents the exact value of
qty times unit_price is `qty * unit_price / 100` currency units, with
`vat_rate` in ten-thousandths the exact product with line_subtotal is
`ls * vat_rate / 1000000` currency units, and the final sum is
`(ls + lv) / 100`; each is passed through the source's quantize step. -/
def invoiceItemFields (vat_rate : ℤ) (qty : Nat) (unit_price : ℤ) : ℤ × ℤ × ℤ :=
  let ls := quantHalfEven ((qty : ℤ) * unit_price) 100
  let lv := quantHalfEven (ls * vat_rate) (100 * 10000)
  let lt := quantHalfEven (ls + lv) 100
  (ls, lv, lt)

/-- The `InvoiceItem` created for one event registration inside
`issue_invoice_for_event_regs`: qty 1, unit_price taken from the
registration's stored `fee_amount` snapshot (not from the event), derived
fields computed by `InvoiceItem.save`. -/
def mkEventItem (vat_rate : ℤ) (invId itemId : Nat) (event : CompEvent)
    (r : EventReg) : InvoiceItemRec :=
  let f := invoiceItemFields vat_rate 1 r.fee_amount
  { id := itemId
    invoice := invId
    student := r.student
    course_enrollment := none
    event_registration := some r.id
    description := "Competition Registration: " ++ event.code ++ " - " ++ event.name
    qty := 1
    unit_price := r.fee_amount
    line_subtotal := f.1
    line_vat := f.2.1
    line_total := f.2.2 }

/-! ## Invoice issuance engine (`invoicing.issue_invoice_for_event_regs`) -/

/-- Issuance failure modes, one per `raise ValueError` site. -/
inductive IssueErr
  | issuedByNone
  | nothingToInvoice
  | noActiveSeller
deriving DecidableEq, Repr

/-- The eligibility filter applied to the caller's queryset `base`:
status PENDING_PAYMENT and no invoice attached. -/
def eligibleRegs (db : DB) (base : EventReg → Bool) : List EventReg :=
  db.regs.filter (fun r =>
    base r && r.status == RegStatus.PENDING_PAYMENT && r.invoice == none)

/-- `issue_invoice_for_event_regs`: reject a missing `issued_by`, filter
the caller's queryset down to eligible rows, fail with `nothingToInvoice`
if none remain, resolve the active seller (failing with `noActiveSeller`),
allocate the next EVENT invoice number, create the invoice header with the
buyer snapshot copied from `org`, create one item per eligible
registration priced from its `fee_amount` snapshot, link the eligible rows
to the new invoice, and finally recompute the invoice rollups as sums over
the invoice's persisted items (`recalc_invoice_totals`).  The enclosing
`transaction.atomic` makes an error leave the store untouched, which the
`Except` result models by carrying no state on error. -/
def issueInvoiceForEventRegs (db : DB) (base : EventReg → Bool)
    (org : Organization) (event : CompEvent) (issued_by : Option Nat)
    (vat_rate : ℤ) (year : Nat) : Except IssueErr (InvoiceRec × DB) :=
  match issued_by with
  | none => .error .issuedByNone
  | some _ =>
    let elig := eligibleRegs db base
    if elig.isEmpty then .error .nothingToInvoice
    else
      match getActiveSeller db.profiles with
      | none => .error .noActiveSeller
      | some seller =>
        let nno := nextInvoiceNo "EVENT" year db.seqs
        let invId := db.invoices.length + 1
        let inv : InvoiceRec :=
          { id := invId
            invoice_no := nno.1
            invoice_type := "EVENT"
            seller := seller.id
            organization := org.id
            buyer_name := org.name_en
            buyer_vat_number := org.vat_number
            buyer_national_address := org.national_address
            vat_rate := vat_rate
            subtotal := 0
            vat_amount := 0
            total := 0
            status := "ISSUED"
            issued_by := issued_by }
        let items' := db.items ++
          elig.enum.map (fun p =>
            mkEventItem vat_rate invId (db.items.length + 1 + p.1) event p.2)
        let regs' := db.regs.map (fun r =>
          if base r && r.status == RegStatus.PENDING_PAYMENT && r.invoice == none
          then { r with invoice := some invId } else r)
        let invItems := items'.filter (fun it => it.invoice == invId)
        let inv' := { inv with
          subtotal := (invItems.map (·.line_subtotal)).sum
          vat_amount := (invItems.map (·.line_vat)).sum
          total := (invItems.map (·.line_total)).sum }
        .ok (inv', { db with
          invoices := db.invoices ++ [inv']
          items := items'
          regs := regs'
          seqs := nno.2.2 })

/-! ## Role helpers (`views_portal.py`) -/

/-- `is_admin(user)`: superuser or role ADMIN. -/
def isAdminUser (u : PortalUser) : Bool :=
  u.is_superuser || u.role == Role.ADMIN

/-- `is_manager(user)`: role ORG_MANAGER. -/
def isManagerUser (u : PortalUser) : Bool :=
  u.role == Role.ORG_MANAGER

/-! ## Manager competition submission (`competition_submit_final`) -/

/-- One row of the update at the heart of `competition_submit_final`:
a row that is among the selected ids, belongs to the manager's
organization and event and is currently DRAFT is set to PENDING_PAYMENT
with the event fee snapshot and the submission audit stamp; every other
row is untouched. -/
def submitFinalRow (selectedIds : List Nat) (orgId evId : Nat) (fee : ℤ)
    (now uid : Nat) (r : EventReg) : EventReg :=
  if selectedIds.contains r.id && r.organization == orgId &&
      r.event == evId && r.status == RegStatus.DRAFT then
    { r with
      status := RegStatus.PENDING_PAYMENT
      fee_amount := fee
      submitted_at := some now
      submitted_by := some uid }
  else r

/-- The `qs.update(status PENDING_PAYMENT, fee_amount, submitted_at/by)`
step of `competition_submit_final`, applied to the whole table. -/
def competitionSubmitUpdate (db : DB) (selectedIds : List Nat)
    (orgId evId : Nat) (fee : ℤ) (now uid : Nat) : DB :=
  { db with regs := db.regs.map (submitFinalRow selectedIds orgId evId fee now uid) }

/-- Outcomes of the embedded portal views (redirects, permission failures,
warning messages, success messages, unhandled `ValueError`). -/
inductive ViewOutcome
  | redirectAdmin
  | forbidden
  | noOrganization
  | missingEvent
  | warnNoSelection
  | serverError
  | invoiceCreated (invId : Nat)
  | submittedNoInvoice
  | warnNothingSubmitted
  | submittedSelected (updated : Nat)
deriving DecidableEq, Repr

/-- The queryset `regs_pending` built after the update: the selected rows
of this organization and event now in PENDING_PAYMENT with no invoice. -/
def pendingAfterSubmit (selectedIds : List Nat) (orgId evId : Nat)
    (r : EventReg) : Bool :=
  selectedIds.contains r.id && r.organization == orgId && r.event == evId &&
    r.status == RegStatus.PENDING_PAYMENT && r.invoice == none

/-- `competition_submit_final`: admin users are redirected away,
non-managers are forbidden, a user without an organization is bounced,
the event is fetched, an empty selection only warns; otherwise, inside one
transaction, selected DRAFT rows of the manager's organization are updated
to PENDING_PAYMENT with the fee snapshot, and
`issue_invoice_for_event_regs` is invoked with `issued_by` None for the
now-pending uninvoiced rows.  A `ValueError` raised by the issuance
escapes the view, so the transaction rolls back to the initial store and
the request fails (`serverError`). -/
def competitionSubmitFinal (db : DB) (actor : PortalUser) (eventId : Nat)
    (selectedIds : List Nat) (now year : Nat) : ViewOutcome × DB :=
  if isAdminUser actor then (.redirectAdmin, db)
  else if !isManagerUser actor then (.forbidden, db)
  else
    match actor.organization with
    | none => (.noOrganization, db)
    | some org =>
      match db.events.find? (fun e => e.id == eventId) with
      | none => (.missingEvent, db)
      | some event =>
        if selectedIds.isEmpty then (.warnNoSelection, db)
        else
          let fee := event.fee_per_student
          let updated := (db.regs.filter (fun r =>
            selectedIds.contains r.id && r.organization == org.id &&
              r.event == eventId && r.status == RegStatus.DRAFT)).length
          let db1 := competitionSubmitUpdate db selectedIds org.id eventId fee now actor.id
          if (db1.regs.filter (pendingAfterSubmit selectedIds org.id eventId)).isEmpty
          then
            if updated = 0 then (.warnNothingSubmitted, db1)
            else (.submittedNoInvoice, db1)
          else
            match issueInvoiceForEventRegs db1
                (pendingAfterSubmit selectedIds org.id eventId) org event
                none 1500 year with
            | .error _ => (.serverError, db)
            | .ok (inv, db2) =>
              if updated = 0 then (.warnNothingSubmitted, db2)
              else (.invoiceCreated inv.id, db2)

/-! ## Course enrollment submission (`course_enrollment_submit_selected`)

The view checks only that the user is not an admin and has an
organization; there is no `is_manager` gate before the DRAFT to SUBMITTED
update. -/

/-- `course_enrollment_submit_selected`: updates the selected DRAFT
enrollments of the user's organization to SUBMITTED and reports the count.
Any organization user — manager or staff — passes the gates. -/
def courseEnrollmentSubmitSelected (db : DB) (actor : PortalUser)
    (ids : List Nat) : ViewOutcome × DB :=
  if isAdminUser actor then (.redirectAdmin, db)
  else
    match actor.organization with
    | none => (.noOrganization, db)
    | some org =>
      if ids.isEmpty then (.warnNoSelection, db)
      else
        let cond : CourseEnr → Bool := fun e =>
          e.organization == org.id && ids.contains e.id &&
            e.status == CEStatus.DRAFT
        let updated := (db.enrollments.filter cond).length
        (.submittedSelected updated,
          { db with enrollments := db.enrollments.map (fun e =>
              if cond e then { e with status := CEStatus.SUBMITTED } else e) })

/-! ## Course re-registration (`course_register_confirm`)

For one selected student: `get_or_create` on (organization, student,
course); when the row already exists in REJECTED or DROPPED status it is
reset in place.  The source resets status, created_by, submitted_at/by,
approved_at/by, rejection_reason, paid_at and payment_ref, but the line
meant to clear the invoice link assigns the empty string to `invoice_no` —
an attribute that does not exist on the `CourseEnrollment` model — so the
stored `invoice` foreign key is left unchanged.  The embedding reproduces
that: `invoice` is not touched by the reset. -/
def courseRegisterStudent (db : DB) (actor : PortalUser)
    (courseId studentId : Nat) : DB :=
  match actor.organization with
  | none => db
  | some org =>
    match db.enrollments.find? (fun e =>
        e.organization == org.id && e.student == studentId &&
          e.course == courseId) with
    | none =>
        { db with enrollments := db.enrollments ++
            [{ id := db.enrollments.length + 1
               organization := org.id
               student := studentId
               course := courseId
               status := CEStatus.DRAFT
               created_by := some actor.id
               submitted_at := none
               submitted_by := none
               approved_at := none
               approved_by := none
               rejection_reason := ""
               invoice := none
               paid_at := none
               payment_ref := "" }] }
    | some e =>
        if e.status == CEStatus.REJECTED || e.status == CEStatus.DROPPED then
          { db with enrollments := db.enrollments.map (fun x =>
              if x.id == e.id then
                { x with
                  status := CEStatus.DRAFT
                  created_by := some actor.id
                  submitted_at := none
                  submitted_by := none
                  approved_at := none
                  approved_by := none
                  rejection_reason := ""
                  paid_at := none
                  payment_ref := "" }
              else x) }
        else db

/-! ## Student registration numbers (`Student.save`)

`Student.save` allocates `sa_registration_no` by scanning the existing
numbers that start with the current year's prefix, taking the maximum in
descending string order, stripping the prefix with `str.replace`, and
adding one when the remainder is all digits.  The embedding works on the
list of stored `sa_registration_no` strings. -/

/-- Left-to-right deletion of every non-overlapping occurrence of `pat`,
with an explicit fuel argument so that the definition is structural; the
fuel is never exhausted when it starts at the length of the scanned list
(each step consumes at least one character). -/
def dropOccAux (pat : List Char) : Nat → List Char → List Char
  | _, [] => []
  | 0, l => l
  | f + 1, c :: rest =>
    if pat.isPrefixOf (c :: rest) && !pat.isEmpty then
      dropOccAux pat f ((c :: rest).drop pat.length)
    else c :: dropOccAux pat f rest

/-- Python `s.replace(pat, "")`: delete every (non-overlapping, leftmost
first) occurrence of `pat`, scanning left to right. -/
def dropOcc (pat l : List Char) : List Char :=
  dropOccAux pat l.length l

/-- Python `s.replace(pat, "")` on strings. -/
def strDropOcc (s pat : String) : String :=
  String.mk (dropOcc pat.data s.data)

/-- Python `s.startswith(p)`. -/
def strStartsWith (s p : String) : Bool :=
  p.data.isPrefixOf s.data

/-- Python `s.isdigit()` for ASCII content: nonempty and all digits. -/
def strIsDigit (s : String) : Bool :=
  !s.data.isEmpty && s.data.all (·.isDigit)

/-- Code-point lexicographic strict order on character lists — the
database collation used to order `sa_registration_no` values (identical to
Lean's `String.lt` on the underlying data). -/
def charListLt : List Char → List Char → Bool
  | [], [] => false
  | [], _ :: _ => true
  | _ :: _, [] => false
  | a :: as, b :: bs =>
    if a < b then true
    else if b < a then false
    else charListLt as bs

/-- `order_by("-sa_registration_no").first()`: the maximum string in the
list (code-point lexicographic order), `none` for the empty list. -/
def maxStr (l : List String) : Option String :=
  l.foldl (fun acc s =>
    match acc with
    | none => some s
    | some t => if charListLt t.data s.data then some s else some t) none

/-- The year prefix of student registration numbers:
UCMAS-KSA, dash, year, dash. -/
def studentNoPfx (year : Nat) : String :=
  String.mk (("UCMAS-KSA-".data ++ digitChars year) ++ ['-'])

/-- `Student.save` number allocation: filter the stored numbers to those
starting with this year's prefix, take the maximum, strip the prefix; if
the remainder is all digits the next counter is its value plus one,
otherwise (or when no number exists yet) it is one; the new number is the
prefix followed by the counter zero-padded to six digits. -/
def studentSave (year : Nat) (existing : List String) : String :=
  let pfx := studentNoPfx year
  let withPfx := existing.filter (fun s => strStartsWith s pfx)
  let nextNum :=
    match maxStr withPfx with
    | some last =>
        let rest := strDropOcc last pfx
        if strIsDigit rest then digitsVal rest.data + 1 else 1
    | none => 1
  pfx ++ String.mk (padChars 6 nextNum)

/-- Create `k` students in order within one year, starting from an empty
roster: each creation allocates against the numbers already stored. -/
def createStudents (year : Nat) : Nat → List String
  | 0 => []
  | k + 1 =>
      let prev := createStudents year k
      prev ++ [studentSave year prev]

/-! ## Concrete fixtures

Small stores used to witness the theorems; the monetary values follow the
end-to-end scenario of the specification (fee 100.00, VAT 15 percent). -/

/-- An organization buyer. -/
def orgOne : Organization := ⟨1, "Org One", "", ""⟩

/-- An open competition event with fee_per_student 100.00. -/
def eventOne : CompEvent := ⟨1, "EV1", "Nationals", 10000⟩

/-- A registration in PENDING_PAYMENT with fee snapshot 100.00. -/
def regS1 : EventReg :=
  ⟨1, 1, 1, 1, RegStatus.PENDING_PAYMENT, 10000, none, none, none, none⟩

/-- A second registration in PENDING_PAYMENT with fee snapshot 100.00. -/
def regS2 : EventReg :=
  ⟨2, 1, 1, 2, RegStatus.PENDING_PAYMENT, 10000, none, none, none, none⟩

/-- The single active seller profile. -/
def sellerOne : CompanyProfile := ⟨1, "UCMAS KSA", true⟩

/-- Store with two eligible registrations, ready for issuance. -/
def dbTwoPending : DB :=
  ⟨[regS1, regS2], [], [], [], [sellerOne], [], [eventOne]⟩

/-- The all-rows queryset (`select_for_update` over the whole selection). -/
def baseAll : EventReg → Bool := fun _ => true

/-- An organization manager of `orgOne`. -/
def managerOne : PortalUser := ⟨2, Role.ORG_MANAGER, some orgOne, false⟩

/-- An organization staff member of `orgOne`. -/
def staffOne : PortalUser := ⟨5, Role.ORG_STAFF, some orgOne, false⟩

/-- A DRAFT registration of student 1 for `eventOne`. -/
def regDraft : EventReg :=
  ⟨1, 1, 1, 1, RegStatus.DRAFT, 0, none, none, none, none⟩

/-- Store with one DRAFT registration and an active seller: the exact
situation in which a manager finalizes a competition submission. -/
def dbOneDraft : DB :=
  ⟨[regDraft], [], [], [], [sellerOne], [], [eventOne]⟩

/-- A DRAFT course enrollment of student 1 in course 3 for organization 1. -/
def enrDraft : CourseEnr :=
  ⟨1, 1, 1, 3, CEStatus.DRAFT, some 5, none, none, none, none, "", none, none, ""⟩

/-- Store with one DRAFT course enrollment. -/
def dbOneDraftEnr : DB :=
  ⟨[], [enrDraft], [], [], [], [], []⟩

/-- A REJECTED course enrollment with a full audit trail and a linked
invoice (id 7). -/
def enrRejected : CourseEnr :=
  ⟨1, 1, 1, 3, CEStatus.REJECTED, some 5, some 11, some 2, some 12, some 3,
    "late submission", some 7, some 13, "PAYREF"⟩

/-- Store with one REJECTED, previously invoiced course enrollment. -/
def dbRejectedEnr : DB :=
  ⟨[], [enrRejected], [], [], [], [], []⟩

/-- Store with one eligible registration but no active seller profile. -/
def dbNoSeller : DB :=
  ⟨[regS1], [], [], [], [⟨1, "UCMAS KSA", false⟩], [], [eventOne]⟩

/-- Two active profiles: seller resolution must pick the greater id. -/
def dbTwoSellers : DB :=
  ⟨[regS1], [], [], [], [⟨1, "Old profile", true⟩, ⟨2, "New profile", true⟩], [], [eventOne]⟩

/-! ## Model operation: editing the event fee

Used by claim C4. -/

/-- Changing `event.fee_per_student` (an admin edit saving the Event row)
updates only the events table. -/
def setEventFee (db : DB) (eventId : Nat) (fee : ℤ) : DB :=
  { db with events := db.events.map (fun e =>
      if e.id == eventId then { e with fee_per_student := fee } else e) }

/-! ## Named post-issuance stores

The results of issuing `dbTwoPending`, spelled out literally. -/

/-- The invoice produced by issuing `dbTwoPending` (two registrations at
fee 100.00, VAT 15 percent): subtotal 200.00, VAT 30.00, total 230.00. -/
def invTwoPending : InvoiceRec :=
  ⟨1, "EVENT-2025-000001", "EVENT", 1, 1, "Org One", "", "",
    1500, 20000, 3000, 23000, "ISSUED", some 9⟩

/-- The store after issuing `dbTwoPending`: both registrations linked to
invoice 1, two items of 100.00 each, counter EVENT 2025 at 1. -/
def dbTwoPendingAfter : DB :=
  ⟨[⟨1, 1, 1, 1, RegStatus.PENDING_PAYMENT, 10000, some 1, none, none, none⟩,
    ⟨2, 1, 1, 2, RegStatus.PENDING_PAYMENT, 10000, some 1, none, none, none⟩],
   [],
   [invTwoPending],
   [⟨1, 1, 1, none, some 1, "Competition Registration: EV1 - Nationals", 1,
      10000, 10000, 1500, 11500⟩,
    ⟨2, 1, 2, none, some 2, "Competition Registration: EV1 - Nationals", 1,
      10000, 10000, 1500, 11500⟩],
   [sellerOne],
   [⟨"EVENT", 2025, 1⟩],
   [eventOne]⟩

/-- A store with no registrations at all: the eligible set is empty. -/
def dbNoPending : DB := ⟨[], [], [], [], [sellerOne], [], [eventOne]⟩

/-- The invoice created by the first call over `dbTwoPending` (named
separately for the C3 witness). -/
def invFirstCall : InvoiceRec :=
  ⟨1, "EVENT-2025-000001", "EVENT", 1, 1, "Org One", "", "",
    1500, 20000, 3000, 23000, "ISSUED", some 9⟩

/-- The store after the first call over `dbTwoPending` (named separately
for the C3 witness). -/
def dbFirstCallAfter : DB :=
  ⟨[⟨1, 1, 1, 1, RegStatus.PENDING_PAYMENT, 10000, some 1, none, none, none⟩,
    ⟨2, 1, 1, 2, RegStatus.PENDING_PAYMENT, 10000, some 1, none, none, none⟩],
   [],
   [invFirstCall],
   [⟨1, 1, 1, none, some 1, "Competition Registration: EV1 - Nationals", 1,
      10000, 10000, 1500, 11500⟩,
    ⟨2, 1, 2, none, some 2, "Competition Registration: EV1 - Nationals", 1,
      10000, 10000, 1500, 11500⟩],
   [sellerOne],
   [⟨"EVENT", 2025, 1⟩],
   [eventOne]⟩

/-! ## Lemmas: decimal digit strings -/

/-- The fuel of `natDigitsAux` is irrelevant once it dominates the number. -/
theorem natDigitsAux_fuel : ∀ f1 f2 n, n ≤ f1 → n ≤ f2 →
    natDigitsAux f1 n = natDigitsAux f2 n := by
  intro f1
  induction f1 with
  | zero =>
    intro f2 n h1 _
    have hn : n = 0 := Nat.le_zero.mp h1
    subst hn
    cases f2 <;> rfl
  | succ a ih =>
    intro f2 n h1 h2
    cases n with
    | zero => cases f2 <;> rfl
    | succ m =>
      cases f2 with
      | zero => omega
      | succ b =>
        show natDigitsAux a ((m + 1) / 10) ++ [(m + 1) % 10] =
          natDigitsAux b ((m + 1) / 10) ++ [(m + 1) % 10]
        have hdiv : (m + 1) / 10 < m + 1 := Nat.div_lt_self (by omega) (by omega)
        rw [ih b ((m + 1) / 10) (by omega) (by omega)]

/-- Unfolding equation for `natDigits` on a positive number. -/
theorem natDigits_pos (n : Nat) (h : n ≠ 0) :
    natDigits n = natDigits (n / 10) ++ [n % 10] := by
  cases n with
  | zero => exact absurd rfl h
  | succ m =>
    show natDigitsAux (m + 1) (m + 1) = natDigitsAux ((m + 1) / 10) ((m + 1) / 10) ++ [(m + 1) % 10]
    have hdiv : (m + 1) / 10 < m + 1 := Nat.div_lt_self (by omega) (by omega)
    show natDigitsAux m ((m + 1) / 10) ++ [(m + 1) % 10] = _
    rw [natDigitsAux_fuel m ((m + 1) / 10) ((m + 1) / 10) (by omega) (by omega)]

/-- A single decimal digit renders to a character that reads back to the
digit. -/
theorem digitChar_toNat_sub (d : Nat) (h : d < 10) :
    (Nat.digitChar d).toNat - 48 = d := by
  interval_cases d <;> rfl

/-- Folding the digit-reading step over the rendered digits of `n`
starting from accumulator `a` yields `a` shifted past those digits plus
`n`. -/
theorem foldl_digits (n : Nat) : ∀ a : Nat,
    ((natDigits n).map Nat.digitChar).foldl (fun a c => a * 10 + (c.toNat - 48)) a =
      a * 10 ^ (natDigits n).length + n := by
  induction n using Nat.strong_induction_on with
  | _ n ih =>
    intro a
    by_cases h : n = 0
    · subst h
      simp [natDigits, natDigitsAux]
    · have hdiv : n / 10 < n := Nat.div_lt_self (Nat.pos_of_ne_zero h) (by omega)
      have hlen : (natDigits n).length = (natDigits (n / 10)).length + 1 := by
        rw [natDigits_pos n h]
        simp
      rw [natDigits_pos n h]
      simp only [List.map_append, List.foldl_append, List.map_cons, List.map_nil,
        List.foldl_cons, List.foldl_nil]
      rw [ih (n / 10) hdiv a, digitChar_toNat_sub (n % 10) (Nat.mod_lt n (by omega))]
      have hpow : 10 ^ ((natDigits n).length) = 10 ^ (natDigits (n / 10)).length * 10 := by
        rw [hlen, pow_succ]
      rw [show (natDigits (n / 10) ++ [n % 10]).length = (natDigits n).length by
        rw [natDigits_pos n h], hpow, ← Nat.mul_assoc]
      have hdm : 10 * (n / 10) + n % 10 = n := Nat.div_add_mod n 10
      generalize a * 10 ^ (natDigits (n / 10)).length = q
      omega

/-- Rendering a number to characters and reading it back is the identity. -/
theorem digitsVal_digitChars (n : Nat) : digitsVal (digitChars n) = n := by
  by_cases h : n = 0
  · subst h
    rfl
  · unfold digitChars digitsVal
    rw [if_neg h, foldl_digits n 0]
    simp

/-- Leading zero characters do not change the value a digit string reads
back to. -/
theorem digitsVal_replicate_zero (z : Nat) (cs : List Char) :
    digitsVal (List.replicate z (Nat.digitChar 0) ++ cs) = digitsVal cs := by
  induction z with
  | zero => rfl
  | succ k ih =>
    show digitsVal (Nat.digitChar 0 :: (List.replicate k (Nat.digitChar 0) ++ cs)) = _
    unfold digitsVal at *
    simpa using ih

/-- Reading back a zero-padded rendering recovers the number: padding is
left-invertible, for every width and every number. -/
theorem digitsVal_padChars (w n : Nat) : digitsVal (padChars w n) = n := by
  unfold padChars
  rw [digitsVal_replicate_zero, digitsVal_digitChars]

/-- Zero-padding to width six is injective on counters. -/
theorem padChars_inj {a b : Nat} (h : padChars 6 a = padChars 6 b) : a = b := by
  have := congrArg digitsVal h
  rwa [digitsVal_padChars, digitsVal_padChars] at this

/-- Numbers below ten to the `k` have at most `k` digits. -/
theorem natDigits_length_le : ∀ n k, n < 10 ^ k → (natDigits n).length ≤ k := by
  intro n
  induction n using Nat.strong_induction_on with
  | _ n ih =>
    intro k hk
    by_cases h : n = 0
    · subst h
      simp [natDigits, natDigitsAux]
    · cases k with
      | zero => omega
      | succ j =>
        have hdiv : n / 10 < n := Nat.div_lt_self (Nat.pos_of_ne_zero h) (by omega)
        have hdivk : n / 10 < 10 ^ j := by
          have := (Nat.div_lt_iff_lt_mul (show 0 < 10 by omega)).mpr
            (show n < 10 ^ j * 10 by rw [← pow_succ]; exact hk)
          exact this
        have := ih (n / 10) hdiv j hdivk
        rw [natDigits_pos n h]
        simp only [List.length_append, List.length_cons, List.length_nil]
        omega

/-- A counter at most 999999 renders to exactly six characters under the
06d format. -/
theorem padChars6_length (n : Nat) (h : n ≤ 999999) :
    (padChars 6 n).length = 6 := by
  have hlt : n < 10 ^ 6 := by norm_num; omega
  have hle : (digitChars n).length ≤ 6 := by
    by_cases h0 : n = 0
    · subst h0
      norm_num [digitChars]
    · unfold digitChars
      rw [if_neg h0]
      simpa using natDigits_length_le n 6 hlt
  unfold padChars
  simp only [List.length_append, List.length_replicate]
  omega

/-- The invoice number format is injective in the counter for a fixed
type and year. -/
theorem fmtInvoiceNo_inj {ty : String} {year a b : Nat}
    (h : fmtInvoiceNo ty year a = fmtInvoiceNo ty year b) : a = b := by
  unfold fmtInvoiceNo at h
  have hdata : ty.data ++ ('-' :: (digitChars year ++ ('-' :: padChars 6 a))) =
      ty.data ++ ('-' :: (digitChars year ++ ('-' :: padChars 6 b))) := by
    injection h
  have h1 := List.append_cancel_left hdata
  have h2 : digitChars year ++ ('-' :: padChars 6 a) =
      digitChars year ++ ('-' :: padChars 6 b) := by
    injection h1
  have h3 := List.append_cancel_left h2
  have h4 : padChars 6 a = padChars 6 b := by
    injection h3
  exact padChars_inj h4

/-! ## Lemmas: the invoice sequence generator -/

/-- Each call returns the stored counter plus one. -/
theorem nextInvoiceNo_counter (ty : String) (year : Nat) (seqs : List SeqRec) :
    (nextInvoiceNo ty year seqs).2.1 = lookupSeq ty year seqs + 1 := by
  unfold nextInvoiceNo lookupSeq
  cases h : seqs.find? (fun s => s.invoice_type == ty && s.year == year) <;> simp [h]

/-- Each call returns the formatted rendering of its counter. -/
theorem nextInvoiceNo_str (ty : String) (year : Nat) (seqs : List SeqRec) :
    (nextInvoiceNo ty year seqs).1 = fmtInvoiceNo ty year (nextInvoiceNo ty year seqs).2.1 := by
  unfold nextInvoiceNo
  cases h : seqs.find? (fun s => s.invoice_type == ty && s.year == year) <;> simp [h]

/-- The persisted counter after a call is the returned counter: the
increment is stored before the number is handed out. -/
theorem lookupSeq_next (ty : String) (year : Nat) (seqs : List SeqRec) :
    lookupSeq ty year (nextInvoiceNo ty year seqs).2.2 =
      lookupSeq ty year seqs + 1 := by
  unfold nextInvoiceNo lookupSeq
  cases h : seqs.find? (fun s => s.invoice_type == ty && s.year == year) with
  | some r =>
    simp only [h]
    rw [List.find?_map]
    have hcongr : (fun s : SeqRec => s.invoice_type == ty && s.year == year) ∘
        (fun t : SeqRec =>
          if t.invoice_type == ty && t.year == year then
            { t with last_number := r.last_number + 1 } else t) =
        (fun s : SeqRec => s.invoice_type == ty && s.year == year) := by
      funext t
      by_cases hc : (t.invoice_type == ty && t.year == year) = true
      · simp [Function.comp, hc]
      · simp [Function.comp, hc]
    rw [hcongr, h]
    have hr := List.find?_some h
    simp only [Bool.and_eq_true, beq_iff_eq] at hr
    simp [hr]
  | none =>
    simp [h, List.find?_append, List.find?]

/-- The `i`-th number issued in a run of `k` calls carries counter value
initial plus `i` plus one, rendered through the invoice number format. -/
theorem issueNumbers_get (ty : String) (year : Nat) :
    ∀ (k : Nat) (seqs : List SeqRec) (i : Nat) (a : String × Nat),
      (issueNumbers ty year k seqs)[i]? = some a →
      a.2 = lookupSeq ty year seqs + i + 1 ∧ a.1 = fmtInvoiceNo ty year a.2 := by
  intro k
  induction k with
  | zero =>
    intro seqs i a ha
    simp [issueNumbers] at ha
  | succ k ih =>
    intro seqs i a ha
    cases i with
    | zero =>
      simp only [issueNumbers, List.getElem?_cons_zero, Option.some.injEq] at ha
      subst ha
      refine ⟨?_, ?_⟩
      · simpa using nextInvoiceNo_counter ty year seqs
      · simpa using nextInvoiceNo_str ty year seqs
    | succ i =>
      simp only [issueNumbers, List.getElem?_cons_succ] at ha
      obtain ⟨h2, h1⟩ := ih (nextInvoiceNo ty year seqs).2.2 i a ha
      rw [lookupSeq_next] at h2
      exact ⟨by omega, h1⟩

/-- Claim C2: `next_invoice_no` returns strings of the exact form
invoice type, dash, issuance-time year, dash, counter zero-padded to six
digits (exactly six characters while the counter stays at most 999999),
and within one (type, year) bucket the numbers returned by any two calls
of a run carry strictly increasing counters and are pairwise distinct
strings — no duplicate is ever issued. -/
theorem C2_next_invoice_no_format_unique
    (ty : String) (year : Nat) (seqs : List SeqRec) (k i j : Nat)
    (a b : String × Nat) (hij : i < j)
    (ha : (issueNumbers ty year k seqs)[i]? = some a)
    (hb : (issueNumbers ty year k seqs)[j]? = some b) :
    a.1 = fmtInvoiceNo ty year a.2 ∧
    (a.2 ≤ 999999 → (padChars 6 a.2).length = 6) ∧
    a.2 < b.2 ∧ a.1 ≠ b.1 := by
  obtain ⟨ha2, ha1⟩ := issueNumbers_get ty year k seqs i a ha
  obtain ⟨hb2, hb1⟩ := issueNumbers_get ty year k seqs j b hb
  refine ⟨ha1, fun hbound => padChars6_length a.2 hbound, by omega, ?_⟩
  intro heq
  have : a.2 = b.2 := by
    apply @fmtInvoiceNo_inj ty year
    rw [← ha1, ← hb1, heq]
  omega

/-- Witness for claim C2: three consecutive calls on an empty sequence
table for the EVENT 2025 bucket; the first and third numbers are compared
concretely. -/
theorem C2_next_invoice_no_format_unique_witness :
    "EVENT-2025-000001" = fmtInvoiceNo "EVENT" 2025 1 ∧
    (1 ≤ 999999 → (padChars 6 1).length = 6) ∧
    1 < 3 ∧ "EVENT-2025-000001" ≠ "EVENT-2025-000003" :=
  C2_next_invoice_no_format_unique "EVENT" 2025 [] 3 0 2
    ("EVENT-2025-000001", 1) ("EVENT-2025-000003", 3)
    (by decide) (by decide) (by decide)

/-! ## Claim C1: rollup consistency -/

/-- Claim C1: after an issuance (which saves every item through
`InvoiceItem.save` and then runs `recalc_invoice_totals`), the invoice
subtotal, vat_amount and total equal the sums of line_subtotal, line_vat
and line_total over the persisted items linked to the invoice — the
rollup is a sum over persisted rows, never an independent computation —
and every item written by the issuance satisfies the `InvoiceItem.save`
equations: line_subtotal is the two-decimal rounding of qty times
unit_price, line_vat the rounding of line_subtotal times the invoice's
vat_rate, and line_total the rounding of line_subtotal plus line_vat. -/
theorem C1_rollup_consistency (db : DB) (base : EventReg → Bool)
    (org : Organization) (event : CompEvent) (issued_by : Option Nat)
    (vat_rate : ℤ) (year : Nat) (inv : InvoiceRec) (db' : DB)
    (h : issueInvoiceForEventRegs db base org event issued_by vat_rate year =
      .ok (inv, db')) :
    inv.subtotal =
      ((db'.items.filter (fun it => it.invoice == inv.id)).map (·.line_subtotal)).sum ∧
    inv.vat_amount =
      ((db'.items.filter (fun it => it.invoice == inv.id)).map (·.line_vat)).sum ∧
    inv.total =
      ((db'.items.filter (fun it => it.invoice == inv.id)).map (·.line_total)).sum ∧
    ∀ it ∈ db'.items.drop db.items.length,
      it.line_subtotal = quantHalfEven ((it.qty : ℤ) * it.unit_price) 100 ∧
      it.line_vat = quantHalfEven (it.line_subtotal * inv.vat_rate) (100 * 10000) ∧
      it.line_total = quantHalfEven (it.line_subtotal + it.line_vat) 100 := by
  unfold issueInvoiceForEventRegs at h
  cases issued_by with
  | none => simp at h
  | some u =>
    simp only at h
    by_cases he : (eligibleRegs db base).isEmpty
    · rw [if_pos he] at h
      simp at h
    · rw [if_neg he] at h
      cases hs : getActiveSeller db.profiles with
      | none =>
        rw [hs] at h
        simp at h
      | some seller =>
        rw [hs] at h
        simp only [Except.ok.injEq, Prod.mk.injEq] at h
        obtain ⟨hinv, hdb⟩ := h
        subst hinv
        subst hdb
        refine ⟨rfl, rfl, rfl, ?_⟩
        intro it hit
        simp only [List.drop_left] at hit
        rw [List.mem_map] at hit
        obtain ⟨p, _, rfl⟩ := hit
        exact ⟨rfl, rfl, rfl⟩



/-- Witness for claim C1: the concrete issuance over `dbTwoPending`
satisfies the rollup and per-item equations. -/
theorem C1_rollup_consistency_witness :
    invTwoPending.subtotal =
      ((dbTwoPendingAfter.items.filter
        (fun it => it.invoice == invTwoPending.id)).map (·.line_subtotal)).sum ∧
    invTwoPending.vat_amount =
      ((dbTwoPendingAfter.items.filter
        (fun it => it.invoice == invTwoPending.id)).map (·.line_vat)).sum ∧
    invTwoPending.total =
      ((dbTwoPendingAfter.items.filter
        (fun it => it.invoice == invTwoPending.id)).map (·.line_total)).sum ∧
    ∀ it ∈ dbTwoPendingAfter.items.drop dbTwoPending.items.length,
      it.line_subtotal = quantHalfEven ((it.qty : ℤ) * it.unit_price) 100 ∧
      it.line_vat = quantHalfEven (it.line_subtotal * invTwoPending.vat_rate) (100 * 10000) ∧
      it.line_total = quantHalfEven (it.line_subtotal + it.line_vat) 100 :=
  C1_rollup_consistency dbTwoPending baseAll orgOne eventOne (some 9) 1500 2025
    invTwoPending dbTwoPendingAfter rfl

/-! ## Claim C3: filter and idempotent re-issuance -/

/-- Inversion of a successful issuance: the eligible set was nonempty,
exactly one invoice row was appended, and every row of the caller's
queryset that was eligible got the new invoice attached. -/
theorem issue_ok_regs (db : DB) (base : EventReg → Bool)
    (org : Organization) (event : CompEvent) (u : Nat)
    (vat_rate : ℤ) (year : Nat) (inv : InvoiceRec) (db' : DB)
    (h : issueInvoiceForEventRegs db base org event (some u) vat_rate year =
      .ok (inv, db')) :
    db'.regs = db.regs.map (fun r =>
      if base r && r.status == RegStatus.PENDING_PAYMENT && r.invoice == none
      then { r with invoice := some (db.invoices.length + 1) } else r) ∧
    db'.invoices.length = db.invoices.length + 1 := by
  unfold issueInvoiceForEventRegs at h
  simp only at h
  by_cases he : (eligibleRegs db base).isEmpty
  · rw [if_pos he] at h
    simp at h
  · rw [if_neg he] at h
    cases hs : getActiveSeller db.profiles with
    | none =>
      rw [hs] at h
      simp at h
    | some seller =>
      rw [hs] at h
      simp only [Except.ok.injEq, Prod.mk.injEq] at h
      obtain ⟨hinv, hdb⟩ := h
      subst hdb
      exact ⟨rfl, by simp⟩

/-- Claim C3: `issue_invoice_for_event_regs` first restricts the caller's
row set to rows in PENDING_PAYMENT with no invoice attached and fails with
the nothing-to-invoice error when that filtered set is empty; and after a
successful call, a second call on the same row set fails with
nothing-to-invoice — the eligible rows all carry the first call's invoice
— so two calls on the same eligible set create exactly one invoice. -/
theorem C3_idempotent_reissuance (db : DB) (base : EventReg → Bool)
    (org : Organization) (event : CompEvent) (u : Nat)
    (vat_rate : ℤ) (year : Nat) :
    (eligibleRegs db base = [] →
      issueInvoiceForEventRegs db base org event (some u) vat_rate year =
        .error .nothingToInvoice) ∧
    (∀ inv db',
      issueInvoiceForEventRegs db base org event (some u) vat_rate year =
        .ok (inv, db') →
      issueInvoiceForEventRegs db' base org event (some u) vat_rate year =
        .error .nothingToInvoice ∧
      db'.invoices.length = db.invoices.length + 1) := by
  constructor
  · intro he
    unfold issueInvoiceForEventRegs
    simp only
    rw [if_pos (by rw [he]; rfl)]
  · intro inv db' h
    obtain ⟨hregs, hlen⟩ := issue_ok_regs db base org event u vat_rate year inv db' h
    have hnil : eligibleRegs db' base = [] := by
      unfold eligibleRegs
      rw [hregs, List.filter_eq_nil_iff]
      intro a ha
      rw [List.mem_map] at ha
      obtain ⟨r, _, rfl⟩ := ha
      by_cases hc : (base r && r.status == RegStatus.PENDING_PAYMENT &&
          r.invoice == none) = true
      · rw [if_pos hc]
        simp
      · rw [if_neg hc]
        simp only [Bool.not_eq_true] at hc
        simp [hc]
    refine ⟨?_, hlen⟩
    unfold issueInvoiceForEventRegs
    simp only
    rw [if_pos (by rw [hnil]; rfl)]



/-- Witness for claim C3: on an empty eligible set the call reports
nothing-to-invoice, and a second call right after the successful first
call over `dbTwoPending` reports nothing-to-invoice with exactly one
invoice created. -/
theorem C3_idempotent_reissuance_witness :
    issueInvoiceForEventRegs dbNoPending baseAll orgOne eventOne (some 9) 1500 2025 =
      .error .nothingToInvoice ∧
    (issueInvoiceForEventRegs dbFirstCallAfter baseAll orgOne eventOne (some 9) 1500 2025 =
      .error .nothingToInvoice ∧
      dbFirstCallAfter.invoices.length = dbTwoPending.invoices.length + 1) :=
  ⟨(C3_idempotent_reissuance dbNoPending baseAll orgOne eventOne 9 1500 2025).1 rfl,
   (C3_idempotent_reissuance dbTwoPending baseAll orgOne eventOne 9 1500 2025).2
     invFirstCall dbFirstCallAfter rfl⟩

/-! ## Claim C4: fee snapshot immutability -/



/-- Claim C4: changing `event.fee_per_student` touches neither stored
registrations (so no `fee_amount` snapshot changes) nor stored invoice
items (so no already-created unit_price changes); issuance prices items
from the registration's stored `fee_amount` snapshot and its result does
not depend on `event.fee_per_student` at all; and the submission update
leaves rows that are already in PENDING_PAYMENT untouched, so a later
submission made after a fee change cannot rewrite their snapshots. -/
theorem C4_fee_snapshot_immutability :
    (∀ (db : DB) (eventId : Nat) (fee : ℤ),
      (setEventFee db eventId fee).regs = db.regs ∧
      (setEventFee db eventId fee).items = db.items ∧
      (setEventFee db eventId fee).invoices = db.invoices) ∧
    (∀ (db : DB) (base : EventReg → Bool) (org : Organization)
        (event : CompEvent) (fee : ℤ) (issued_by : Option Nat)
        (vat_rate : ℤ) (year : Nat),
      issueInvoiceForEventRegs db base org
          { event with fee_per_student := fee } issued_by vat_rate year =
        issueInvoiceForEventRegs db base org event issued_by vat_rate year) ∧
    (∀ (vat_rate : ℤ) (invId itemId : Nat) (event : CompEvent) (r : EventReg),
      (mkEventItem vat_rate invId itemId event r).unit_price = r.fee_amount) ∧
    (∀ (selectedIds : List Nat) (orgId evId : Nat) (fee : ℤ) (now uid : Nat)
        (r : EventReg),
      submitFinalRow selectedIds orgId evId fee now uid
          { r with status := RegStatus.PENDING_PAYMENT } =
        { r with status := RegStatus.PENDING_PAYMENT }) := by
  refine ⟨fun db eventId fee => ⟨rfl, rfl, rfl⟩, fun db base org event fee ib vr yr => rfl,
    fun vr invId itemId event r => rfl, fun sel orgId evId fee now uid r => ?_⟩
  simp [submitFinalRow]

/-! ## Claim C10: active seller resolution -/

/-- Folding the descending-id chooser never loses a present accumulator. -/
theorem firstByDescId_fold_ne_none :
    ∀ (l : List CompanyProfile) (a : CompanyProfile),
      l.foldl (fun acc p =>
        match acc with
        | none => some p
        | some q => if q.id < p.id then some p else some q) (some a) ≠ none := by
  intro l
  induction l with
  | nil => intro a h; cases h
  | cons x xs ih =>
    intro a
    show xs.foldl _ (if a.id < x.id then some x else some a) ≠ none
    by_cases hc : a.id < x.id
    · rw [if_pos hc]; exact ih x
    · rw [if_neg hc]; exact ih a

/-- The descending-id chooser returns a member that dominates every list
element and the accumulator. -/
theorem firstByDescId_fold_spec :
    ∀ (l : List CompanyProfile) (acc : Option CompanyProfile) (q : CompanyProfile),
      l.foldl (fun acc p =>
        match acc with
        | none => some p
        | some t => if t.id < p.id then some p else some t) acc = some q →
      (q ∈ l ∨ acc = some q) ∧ (∀ p ∈ l, p.id ≤ q.id) ∧
        (∀ a, acc = some a → a.id ≤ q.id) := by
  intro l
  induction l with
  | nil =>
    intro acc q h
    simp only [List.foldl_nil] at h
    refine ⟨Or.inr h, by simp, fun a ha => ?_⟩
    rw [h] at ha
    cases ha
    exact le_refl _
  | cons p ps ih =>
    intro acc q h
    simp only [List.foldl_cons] at h
    obtain ⟨hmem, hall, hacc⟩ := ih _ q h
    have hstep : ∀ a, (match acc with
        | none => some p
        | some t => if t.id < p.id then some p else some t) = some a →
        a.id ≤ q.id := hacc
    have hp_le : p.id ≤ q.id := by
      cases hA : acc with
      | none =>
        exact hstep p (by rw [hA])
      | some t =>
        by_cases hc : t.id < p.id
        · exact hstep p (by rw [hA]; simp [hc])
        · have := hstep t (by rw [hA]; simp [hc])
          omega
    refine ⟨?_, ?_, ?_⟩
    · rcases hmem with hq | hq
      · exact Or.inl (List.mem_cons_of_mem p hq)
      · cases hA : acc with
        | none =>
          rw [hA] at hq
          cases hq
          exact Or.inl (List.mem_cons_self _ _)
        | some t =>
          rw [hA] at hq
          have hq' : (if t.id < p.id then some p else some t) = some q := hq
          by_cases hc : t.id < p.id
          · rw [if_pos hc] at hq'
            cases hq'
            exact Or.inl (List.mem_cons_self _ _)
          · rw [if_neg hc] at hq'
            cases hq'
            exact Or.inr rfl
    · intro x hx
      rcases List.mem_cons.mp hx with hx | hx
      · subst hx; exact hp_le
      · exact hall x hx
    · intro a hA
      subst hA
      by_cases hc : a.id < p.id
      · have := hstep p (by simp [hc])
        omega
      · exact hstep a (by simp [hc])

/-- Claim C10: seller resolution does not require a unique active profile:
whenever at least one `CompanyProfile` is flagged active,
`get_active_seller` returns an active profile whose id dominates every
active profile (with several active profiles, the one with the greatest
id); only when no profile is active does it fail, and then issuance on a
nonempty eligible set aborts with the no-active-seller error before any
invoice row is created (the `Except` error carries no new state). -/
theorem C10_active_seller_resolution (db : DB) (base : EventReg → Bool)
    (org : Organization) (event : CompEvent) (u : Nat)
    (vat_rate : ℤ) (year : Nat) (p : CompanyProfile) :
    (p ∈ db.profiles → p.is_active = true →
      ∃ q, getActiveSeller db.profiles = some q ∧ q ∈ db.profiles ∧
        q.is_active = true ∧ ∀ r ∈ db.profiles, r.is_active = true → r.id ≤ q.id) ∧
    ((∀ r ∈ db.profiles, r.is_active = false) →
      getActiveSeller db.profiles = none ∧
      (eligibleRegs db base ≠ [] →
        issueInvoiceForEventRegs db base org event (some u) vat_rate year =
          .error .noActiveSeller)) := by
  constructor
  · intro hmem hact
    have hmemf : p ∈ db.profiles.filter (·.is_active) :=
      List.mem_filter.mpr ⟨hmem, hact⟩
    cases hfold : getActiveSeller db.profiles with
    | none =>
      exfalso
      unfold getActiveSeller firstByDescId at hfold
      cases hl : db.profiles.filter (·.is_active) with
      | nil => rw [hl] at hmemf; cases hmemf
      | cons x xs =>
        rw [hl] at hfold
        simp only [List.foldl_cons] at hfold
        exact firstByDescId_fold_ne_none xs x hfold
    | some q =>
      have hq := firstByDescId_fold_spec (db.profiles.filter (·.is_active)) none q hfold
      obtain ⟨hqmem, hqall, _⟩ := hq
      have hqmem' : q ∈ db.profiles.filter (·.is_active) := by
        rcases hqmem with h | h
        · exact h
        · cases h
      refine ⟨q, rfl, (List.mem_filter.mp hqmem').1, (List.mem_filter.mp hqmem').2, ?_⟩
      intro r hr hra
      exact hqall r (List.mem_filter.mpr ⟨hr, hra⟩)
  · intro hall
    have hfil : db.profiles.filter (·.is_active) = [] := by
      rw [List.filter_eq_nil_iff]
      intro a ha
      rw [hall a ha]
      simp
    have hnone : getActiveSeller db.profiles = none := by
      unfold getActiveSeller
      rw [hfil]
      rfl
    refine ⟨hnone, fun hne => ?_⟩
    unfold issueInvoiceForEventRegs
    simp only
    rw [if_neg (by rw [List.isEmpty_iff]; exact hne), hnone]

/-- Witness for claim C10: with two active profiles (ids 1 and 2) the
resolved seller dominates all active ids; with no active profile the
resolution fails and issuance over a nonempty eligible set aborts. -/
theorem C10_active_seller_resolution_witness :
    (∃ q, getActiveSeller dbTwoSellers.profiles = some q ∧
      q ∈ dbTwoSellers.profiles ∧ q.is_active = true ∧
      ∀ r ∈ dbTwoSellers.profiles, r.is_active = true → r.id ≤ q.id) ∧
    (getActiveSeller dbNoSeller.profiles = none ∧
      issueInvoiceForEventRegs dbNoSeller baseAll orgOne eventOne (some 9) 1500 2025 =
        .error .noActiveSeller) :=
  ⟨(C10_active_seller_resolution dbTwoSellers baseAll orgOne eventOne 9 1500 2025
      ⟨1, "Old profile", true⟩).1 (by decide) (by decide),
   let h := (C10_active_seller_resolution dbNoSeller baseAll orgOne eventOne 9 1500 2025
      ⟨1, "UCMAS KSA", false⟩).2 (by decide)
   ⟨h.1, h.2 (by decide)⟩⟩

/-! ## Claim C5: who can trigger issuance -/

/-- Claim C5 (code bug): the manager portal path never returns an
invoice.  For a manager submitting one eligible draft (active seller
present, so every precondition of the claim holds), the view calls
`issue_invoice_for_event_regs` with `issued_by` None, that call raises
unconditionally, and the enclosing transaction rolls the whole submission
back: the request fails as a server error, the store is returned
unchanged, and no invoice row exists afterwards. -/
theorem C5_manager_issuance_always_fails :
    competitionSubmitFinal dbOneDraft managerOne 1 [1] 10 2025 =
      (.serverError, dbOneDraft) ∧
    dbOneDraft.invoices = [] ∧
    dbOneDraft.regs.map (·.status) = [RegStatus.DRAFT] ∧
    getActiveSeller dbOneDraft.profiles = some sellerOne ∧
    isManagerUser managerOne = true ∧
    issueInvoiceForEventRegs dbOneDraft
      (pendingAfterSubmit [1] 1 1) orgOne eventOne none 1500 2025 =
      .error .issuedByNone := by
  refine ⟨rfl, rfl, rfl, rfl, rfl, rfl⟩

/-! ## Claim C6: the event-registration submission chain -/

/-- Counterexample to claim C6: the manager's final competition
submission moves a DRAFT registration directly to PENDING_PAYMENT — the
row reaches PendingPayment from Draft, not from Submitted, and the actor
performing the transition is the organization manager, not an admin (the
view redirects admins away). -/
theorem C6_counterexample :
    (submitFinalRow [1] 1 1 10000 10 2 regDraft).status = RegStatus.PENDING_PAYMENT ∧
    regDraft.status = RegStatus.DRAFT ∧
    regDraft.status ≠ RegStatus.SUBMITTED ∧
    isManagerUser managerOne = true ∧
    isAdminUser managerOne = false ∧
    (competitionSubmitUpdate dbOneDraft [1] 1 1 10000 10 managerOne.id).regs.map (·.status) =
      [RegStatus.PENDING_PAYMENT] := by
  decide

/-- Claim C6 as amended: event registrations reach PENDING_PAYMENT
directly from DRAFT — the submission update sends a row to
PENDING_PAYMENT exactly when it already was there or when it is a
selected DRAFT row of the manager's organization and event, and it never
produces the SUBMITTED status; the transition is performed by the
manager: staff are forbidden from the view, and admins are redirected
away from it. -/
theorem C6_amended_draft_to_pending :
    (∀ (sel : List Nat) (orgId evId : Nat) (fee : ℤ) (now uid : Nat) (r : EventReg),
      (submitFinalRow sel orgId evId fee now uid r).status = RegStatus.PENDING_PAYMENT ↔
        (r.status = RegStatus.PENDING_PAYMENT ∨
          ((sel.contains r.id && r.organization == orgId && r.event == evId) = true ∧
            r.status = RegStatus.DRAFT))) ∧
    (∀ (sel : List Nat) (orgId evId : Nat) (fee : ℤ) (now uid : Nat) (r : EventReg),
      (submitFinalRow sel orgId evId fee now uid r).status = RegStatus.SUBMITTED ↔
        r.status = RegStatus.SUBMITTED) ∧
    (∀ (db : DB) (i : Nat) (o : Option Organization) (evId : Nat)
        (sel : List Nat) (now year : Nat),
      competitionSubmitFinal db ⟨i, Role.ORG_STAFF, o, false⟩ evId sel now year =
        (.forbidden, db)) ∧
    (∀ (db : DB) (i : Nat) (o : Option Organization) (su : Bool) (evId : Nat)
        (sel : List Nat) (now year : Nat),
      competitionSubmitFinal db ⟨i, Role.ADMIN, o, su⟩ evId sel now year =
        (.redirectAdmin, db)) := by
  refine ⟨?_, ?_, ?_, ?_⟩
  · intro sel orgId evId fee now uid r
    unfold submitFinalRow
    by_cases h : (sel.contains r.id && r.organization == orgId &&
        r.event == evId && r.status == RegStatus.DRAFT) = true
    · rw [if_pos h]
      have hparts := h
      simp only [Bool.and_eq_true] at hparts
      obtain ⟨⟨⟨h1, h2⟩, h3⟩, h4⟩ := hparts
      rw [beq_iff_eq] at h4
      constructor
      · intro _
        exact Or.inr ⟨by rw [h1, h2, h3]; rfl, h4⟩
      · intro _
        rfl
    · rw [if_neg h]
      constructor
      · intro hpp
        exact Or.inl hpp
      · intro hor
        rcases hor with hpp | ⟨hsel, hdr⟩
        · exact hpp
        · exact absurd (by rw [hsel, hdr]; rfl) h
  · intro sel orgId evId fee now uid r
    unfold submitFinalRow
    by_cases h : (sel.contains r.id && r.organization == orgId &&
        r.event == evId && r.status == RegStatus.DRAFT) = true
    · rw [if_pos h]
      have hparts := h
      simp only [Bool.and_eq_true] at hparts
      obtain ⟨⟨⟨_, _⟩, _⟩, h4⟩ := hparts
      rw [beq_iff_eq] at h4
      rw [h4]
      simp
    · rw [if_neg h]
  · intro db i o evId sel now year
    rfl
  · intro db i o su evId sel now year
    cases su <;> rfl

/-! ## Claim C7: staff and the Draft to Submitted transition -/

/-- Claim C7 (code bug): `course_enrollment_submit_selected` has no
manager gate — an organization staff user (role ORG_STAFF, not a
manager) submitting a selected DRAFT enrollment of their own organization
succeeds: the row moves from DRAFT to SUBMITTED and the view reports one
submitted enrollment. -/
theorem C7_staff_can_submit_drafts :
    staffOne.role = Role.ORG_STAFF ∧
    isManagerUser staffOne = false ∧
    dbOneDraftEnr.enrollments.map (·.status) = [CEStatus.DRAFT] ∧
    (courseEnrollmentSubmitSelected dbOneDraftEnr staffOne [1]).1 =
      .submittedSelected 1 ∧
    (courseEnrollmentSubmitSelected dbOneDraftEnr staffOne [1]).2.enrollments.map
      (·.status) = [CEStatus.SUBMITTED] := by
  decide

/-! ## Claim C8: the Rejected/Dropped reset -/

/-- Claim C8 (code bug): re-registering the same (organization, student,
course) against a REJECTED enrollment resets the row in place (still
exactly one row) to DRAFT and clears submitted_at/by, approved_at/by,
rejection_reason, paid_at and payment_ref — but the invoice link (id 7)
survives, because the source assigns the empty string to a nonexistent
`invoice_no` attribute instead of clearing the `invoice` foreign key. -/
theorem C8_reset_keeps_invoice_link :
    enrRejected.status = CEStatus.REJECTED ∧
    enrRejected.invoice = some 7 ∧
    (courseRegisterStudent dbRejectedEnr staffOne 3 1).enrollments =
      [⟨1, 1, 1, 3, CEStatus.DRAFT, some 5, none, none, none, none, "",
        some 7, none, ""⟩] := by
  decide

/-! ## Claim C9: student registration number allocation -/

/-- Counterexample to claim C9: allocation scans the maximum surviving
number, so deletions are not irrelevant.  Create six students in 2025
(numbers 000001 through 000006), delete the sixth, and create a seventh:
the seventh student created in the year receives 000006 — a reused
number — not 000007 as the claim requires regardless of deletions. -/
theorem C9_counterexample :
    createStudents 2025 6 =
      ["UCMAS-KSA-2025-000001", "UCMAS-KSA-2025-000002", "UCMAS-KSA-2025-000003",
       "UCMAS-KSA-2025-000004", "UCMAS-KSA-2025-000005", "UCMAS-KSA-2025-000006"] ∧
    studentSave 2025 ((createStudents 2025 6).erase "UCMAS-KSA-2025-000006") =
      "UCMAS-KSA-2025-000006" ∧
    "UCMAS-KSA-2025-000006" ≠ "UCMAS-KSA-2025-000007" := by
  decide

/-- Claim C9 as amended: numbers have the form UCMAS-KSA, dash, creation
year, dash, six-digit zero-padded counter, allocated by scanning the
maximum existing number with that year's prefix and adding one.  The
first student created in year Y gets counter 000001 and the seventh gets
000007 provided the student holding the current maximum number has not
been deleted (deleting lower-numbered students in between changes
nothing); deleting the maximum-numbered student lets its number be
reused by the next creation. -/
theorem C9_amended_allocation :
    (∀ (year : Nat) (existing : List String), ∃ n,
      studentSave year existing = studentNoPfx year ++ String.mk (padChars 6 n)) ∧
    studentSave 2025 [] = "UCMAS-KSA-2025-000001" ∧
    studentSave 2025 (createStudents 2025 6) = "UCMAS-KSA-2025-000007" ∧
    studentSave 2025 ((createStudents 2025 6).erase "UCMAS-KSA-2025-000003") =
      "UCMAS-KSA-2025-000007" ∧
    studentSave 2025 ((createStudents 2025 6).erase "UCMAS-KSA-2025-000006") =
      "UCMAS-KSA-2025-000006" := by
  refine ⟨?_, by decide, by decide, by decide, by decide⟩
  intro year existing
  exact ⟨(match maxStr (existing.filter (fun s => strStartsWith s (studentNoPfx year))) with
    | some last =>
        if strIsDigit (strDropOcc last (studentNoPfx year))
        then digitsVal (strDropOcc last (studentNoPfx year)).data + 1 else 1
    | none => 1), rfl⟩
